import Mathlib

/-!
Verification of the cross-registry schema replication engine of the
kafka-connect-admin VS Code extension.

The definitions below are a shallow embedding of the TypeScript source:

* `Payload` models JSON-like JavaScript values as they flow through the
  engine (registry response bodies, clipboard entries, status documents).
  JavaScript arrays are modelled with their own constructor; object
  property access on an array yields `none` (undefined), matching JS for
  the property names the engine reads.  Cyclic heap graphs are not
  representable as inductive data; all theorems range over finite values.
* `extractSchemaString` embeds the normalizer of `src/extension.ts`
  (lines 11-32), including JavaScript truthiness (`if (!payload)`,
  `if (s) return s`).
-/

namespace ConnectAdmin

/-- JSON-like JavaScript value. -/
inductive Payload where
  | nul  : Payload
  | bool : Bool → Payload
  | num  : Int → Payload
  | str  : String → Payload
  | arr  : List Payload → Payload
  | obj  : List (String × Payload) → Payload

/-- JavaScript truthiness of a value (`!payload`, `if (s)` …). -/
def Payload.truthy : Payload → Bool
  | .nul    => false
  | .bool b => b
  | .num n  => n != 0
  | .str s  => s ≠ ""
  | .arr _  => true
  | .obj _  => true

/-- Property access `p.k`: `some` for a present object property, `none`
for JavaScript `undefined`.  Arrays only expose numeric indices, so named
property access on them is `undefined`. -/
def Payload.field : Payload → String → Option Payload
  | .obj fields, k => (fields.find? (fun kv => kv.1 = k)).map (·.2)
  | _, _ => none

/-- `typeof v === 'object' && v` (truthy): objects and arrays qualify,
`null` is excluded by truthiness. -/
def Payload.isObjLike : Payload → Bool
  | .arr _ => true
  | .obj _ => true
  | _      => false

mutual

/-- Embedding of `extractSchemaString` (src/extension.ts lines 11-32):
try a fixed sequence of payload shapes and fall back to a recursive
search through object-valued properties.  The recursion in the source
has no depth cap: it calls itself on every object-valued property. -/
def extractSchemaString : Payload → Option String
  | .nul    => none
  | .bool _ => none
  | .num _  => none
  | .str s  => if s = "" then none else some s
  | .arr elems => searchElems elems
  | .obj fields =>
    match fields.find? (fun kv => kv.1 = "schema") with
    | some (_, .str s) => some s
    | topSchema =>
      match fields.find? (fun kv => kv.1 = "schemaString") with
      | some (_, .str s) => some s
      | _ =>
        match topSchema with
        | some (_, .obj inner) =>
          match inner.find? (fun kv => kv.1 = "schema") with
          | some (_, .str s) => some s
          | _ => extractAltKeys fields
        | _ => extractAltKeys fields

/-- The `definition` / `value` alternate keys and the final recursive
search over the object's property values, in source order. -/
def extractAltKeys (fields : List (String × Payload)) : Option String :=
  match fields.find? (fun kv => kv.1 = "definition") with
  | some (_, .str s) => some s
  | _ =>
    match fields.find? (fun kv => kv.1 = "value") with
    | some (_, .str s) => some s
    | _ => searchFields fields

/-- `for (const k of Object.keys(payload)) { … }` over an object:
recurse into each object-valued property, returning the first truthy
(non-empty) string found. -/
def searchFields : List (String × Payload) → Option String
  | [] => none
  | (_, v) :: rest =>
    if v.isObjLike then
      match extractSchemaString v with
      | some s => if s = "" then searchFields rest else some s
      | none => searchFields rest
    else searchFields rest

/-- The same key loop over an array (`Object.keys` of an array are its
indices, so the loop visits the elements). -/
def searchElems : List Payload → Option String
  | [] => none
  | v :: rest =>
    if v.isObjLike then
      match extractSchemaString v with
      | some s => if s = "" then searchElems rest else some s
      | none => searchElems rest
    else searchElems rest

end

mutual

/-- Modelled from the spec: `extractSchemaString` as §4.1 describes it,
with the depth of the recursive search capped at one level ("Depth of
recursive search is capped at one level to bound cost and avoid infinite
loops on cyclic structures").  `d` is the remaining recursion budget for
the property-search loop; the shape probes themselves are always tried. -/
def extractSchemaStringCapped : Nat → Payload → Option String
  | _, .nul    => none
  | _, .bool _ => none
  | _, .num _  => none
  | _, .str s  => if s = "" then none else some s
  | d, .arr elems =>
    match d with
    | 0 => none
    | n + 1 => searchElemsCapped n elems
  | d, .obj fields =>
    match fields.find? (fun kv => kv.1 = "schema") with
    | some (_, .str s) => some s
    | topSchema =>
      match fields.find? (fun kv => kv.1 = "schemaString") with
      | some (_, .str s) => some s
      | _ =>
        match topSchema with
        | some (_, .obj inner) =>
          match inner.find? (fun kv => kv.1 = "schema") with
          | some (_, .str s) => some s
          | _ => extractAltKeysCapped d fields
        | _ => extractAltKeysCapped d fields

/-- Depth-capped version of the `definition`/`value` probes and the
final search loop. -/
def extractAltKeysCapped (d : Nat) (fields : List (String × Payload)) :
    Option String :=
  match fields.find? (fun kv => kv.1 = "definition") with
  | some (_, .str s) => some s
  | _ =>
    match fields.find? (fun kv => kv.1 = "value") with
    | some (_, .str s) => some s
    | _ =>
      match d with
      | 0 => none
      | n + 1 => searchFieldsCapped n fields

/-- Depth-capped property-search loop over object fields. -/
def searchFieldsCapped : Nat → List (String × Payload) → Option String
  | _, [] => none
  | d, (_, v) :: rest =>
    if v.isObjLike then
      match extractSchemaStringCapped d v with
      | some s => if s = "" then searchFieldsCapped d rest else some s
      | none => searchFieldsCapped d rest
    else searchFieldsCapped d rest

/-- Depth-capped search loop over array elements. -/
def searchElemsCapped : Nat → List Payload → Option String
  | _, [] => none
  | d, v :: rest =>
    if v.isObjLike then
      match extractSchemaStringCapped d v with
      | some s => if s = "" then searchElemsCapped d rest else some s
      | none => searchElemsCapped d rest
    else searchElemsCapped d rest

end

/-! ### Spec-shaped presentation of the normalizer (for the
priority-order refinement): each known §4.1 shape as its own probe,
tried in the spec's fixed priority order, first match wins. -/

/-- §4.1 shape: the payload is itself a (truthy) string. -/
def shapeDirect : Payload → Option String
  | .str s => if s = "" then none else some s
  | _ => none

/-- §4.1 shape: object with a `schema` string field. -/
def shapeSchemaField (p : Payload) : Option String :=
  match p.field "schema" with
  | some (.str s) => some s
  | _ => none

/-- §4.1 shape: object with a `schemaString` string field. -/
def shapeSchemaStringField (p : Payload) : Option String :=
  match p.field "schemaString" with
  | some (.str s) => some s
  | _ => none

/-- §4.1 shape: object whose `schema` field is itself an object holding
a nested `schema` string. -/
def shapeNestedSchema (p : Payload) : Option String :=
  match p.field "schema" with
  | some q =>
    if q.isObjLike then
      match q.field "schema" with
      | some (.str s) => some s
      | _ => none
    else none
  | none => none

/-- §4.1 shape: object with a `definition` string field. -/
def shapeDefinition (p : Payload) : Option String :=
  match p.field "definition" with
  | some (.str s) => some s
  | _ => none

/-- §4.1 shape: object with a `value` string field. -/
def shapeValue (p : Payload) : Option String :=
  match p.field "value" with
  | some (.str s) => some s
  | _ => none

/-- §4.1 shape: the recursive search through the object-valued
properties (the engine's search loop). -/
def shapeRecursiveSearch : Payload → Option String
  | .obj fields => searchFields fields
  | .arr elems => searchElems elems
  | _ => none

/-- First `some` of a list of probe results. -/
def firstSomeAux : List (Option String) → Option String
  | [] => none
  | some s :: _ => some s
  | none :: rest => firstSomeAux rest

/-- Modelled from the spec: "try each known shape in a fixed priority
order (direct string → `schema` → `schemaString` → nested
`schema.schema` → `definition`/`value` → recursive search through
remaining object-valued properties). Return the first match." -/
def extractSchemaStringSpec (p : Payload) : Option String :=
  firstSomeAux
    [ shapeDirect p, shapeSchemaField p, shapeSchemaStringField p,
      shapeNestedSchema p, shapeDefinition p, shapeValue p,
      shapeRecursiveSearch p ]


/-! ### The replication engine: multi-version paste
(`connectAdmin.pasteSchema` handler, src/extension.ts lines 268-366) -/

/-- One clipboard entry `{ version, schema }` as built by the copy
handler. -/
structure VersionEntry where
  version : Int
  schema : Payload

/-- The process-wide schema clipboard `{ subject, versions }`. -/
structure Clipboard where
  subject : String
  versions : List VersionEntry

/-- The registration request body built at lines 297-298:
`{ schema: schemaStr }` plus `schemaType` when one was found. -/
structure RegisterRequest where
  schema : String
  schemaType : Option Payload

/-- Target-registry behavior visible to the paste loop.  `register n r`
is the response to the `registerSchema` call made when `n` such calls
have already been served (`.error` models a thrown/rejected request);
`getById i` is the response to `getSchemaById i`. -/
structure PasteTarget where
  register : Nat → RegisterRequest → Except String Payload
  getById : Int → Except String Payload

/-- Line 287: `(payloadSchema && payloadSchema.schemaType) ||
(payloadSchema && payloadSchema.type) || undefined` — the second
`||` operand, `payloadSchema.type`, kept only when truthy. -/
def typeFallback (p : Payload) : Option Payload :=
  match p.field "type" with
  | some v => if v.truthy then some v else none
  | none => none

/-- Line 287: the full truthiness chain selecting a schema-type hint. -/
def schemaTypeOf (p : Payload) : Option Payload :=
  if p.truthy then
    match p.field "schemaType" with
    | some v => if v.truthy then some v else typeFallback p
    | none => typeFallback p
  else none

/-- Lines 286-293: extract the canonical schema string (and type hint)
from one clipboard version.  `none` is the skip path (`if (!schemaStr)
… continue`), which also rejects an extracted empty string; the
`typeof schemaStr !== 'string'` re-stringify branch is unreachable since
`extractSchemaString` only produces strings. -/
def normalizeVersion (p : Payload) : Option RegisterRequest :=
  match extractSchemaString p with
  | none => none
  | some s => if s = "" then none else some ⟨s, schemaTypeOf p⟩

/-- Lines 302-310: `regRes && typeof regRes.id === 'number'` — the
registry-assigned global id carried by the registration response. -/
def getIdField (body : Payload) : Option Int :=
  if body.truthy then
    match body.field "id" with
    | some (.num n) => some n
    | _ => none
  else none

/-- Net effect of one version's registration retry loop. -/
structure VersionReplay where
  registered : Bool
  readBackFailed : Bool
  regCalls : Nat

/-- Lines 295-326: `for (let attempt = 1; attempt <= 3 && !registered;
attempt++)`.  On a thrown `registerSchema` the catch swallows the error
and the loop retries; on success `registered` is set to `true` *before*
the id read-back, and a failed `getSchemaById` throws into the same
catch with `registered` already `true`, ending the loop.  `fuel` is the
remaining attempt budget and `c` the number of `registerSchema` calls
already served by the target. -/
def registrationAttempts (tgt : PasteTarget) (req : RegisterRequest) :
    Nat → Nat → VersionReplay × Nat
  | 0, c => (⟨false, false, 0⟩, c)
  | fuel + 1, c =>
    match tgt.register c req with
    | .error _ =>
      let r := registrationAttempts tgt req fuel (c + 1)
      (⟨r.1.registered, r.1.readBackFailed, r.1.regCalls + 1⟩, r.2)
    | .ok body =>
      match getIdField body with
      | some id =>
        match tgt.getById id with
        | .ok _ => (⟨true, false, 1⟩, c + 1)
        | .error _ => (⟨true, true, 1⟩, c + 1)
      | none => (⟨true, false, 1⟩, c + 1)

/-- Per-version result of the replay loop: `versionNumber` is the
clipboard version being replayed, `attempted` whether normalization
succeeded and registration was tried, `registered` the loop's flag at
exit, `readBackFailed` whether a `getSchemaById` read-back of a
registry-assigned id failed, `error` the skip-path error record
(line 289's log message). -/
structure ReplayOutcome where
  versionNumber : Int
  attempted : Bool
  registered : Bool
  readBackFailed : Bool
  error : Option String
  deriving DecidableEq, Repr

/-- Lines 284-327: the `for (const v of clipboard.versions)` replay
loop.  Produces one `ReplayOutcome` per iteration (per clipboard
version) plus the trace of `registerSchema` calls, each tagged with
the version being replayed when it was issued.  The diagnostic
`findSubjectBySchema` lookup inside the catch performs only reads and
is dropped here; it issues no registration calls. -/
def pasteVersionsLoop (tgt : PasteTarget) :
    List VersionEntry → Nat → List ReplayOutcome × List (Int × String)
  | [], _ => ([], [])
  | v :: rest, c =>
    match normalizeVersion v.schema with
    | none =>
      let r := pasteVersionsLoop tgt rest c
      (⟨v.version, false, false, false, some "schema payload not understood"⟩ :: r.1, r.2)
    | some req =>
      let a := registrationAttempts tgt req 3 c
      let r := pasteVersionsLoop tgt rest a.2
      (⟨v.version, true, a.1.registered, a.1.readBackFailed, none⟩ :: r.1,
        List.replicate a.1.regCalls (v.version, req.schema) ++ r.2)

/-- The multi-version paste path of the `connectAdmin.pasteSchema`
handler (lines 281-366), restricted to its per-version replay loop; the
final `getVersions` verification step issues no registration calls and
touches no outcome. -/
def pasteMultiVersion (tgt : PasteTarget) (clipboard : Clipboard) :
    List ReplayOutcome × List (Int × String) :=
  pasteVersionsLoop tgt clipboard.versions 0

/-- A paste-loop relevant target behavior where `registerSchema` accepts
the (compatible) write and returns a global id, but the immediate
`getSchemaById` read-back fails — the eventual-consistency scenario the
read-back check is there to catch. -/
def readBackFailTarget : PasteTarget where
  register := fun _ _ => .ok (.obj [("id", .num 1)])
  getById := fun _ => .error "Failed to get schema by id (404)"

/-- Relation between a clipboard version and the outcome recorded for
it by the replay loop. -/
def OutcomeMatches (e : VersionEntry) (o : ReplayOutcome) : Prop :=
  o.versionNumber = e.version ∧
  (normalizeVersion e.schema = none → o.attempted = false ∧ o.error.isSome)

/-- A mock target that accepts every registration on the first attempt
and serves every id read-back (spec §8's "mock target"). -/
def AlwaysAccepts (tgt : PasteTarget) : Prop :=
  ∀ c req, ∃ body, tgt.register c req = .ok body ∧
    ∀ id, getIdField body = some id → ∃ p, tgt.getById id = .ok p

/-- A concrete always-accepting mock target. -/
def okTarget : PasteTarget where
  register := fun _ _ => .ok (.obj [("id", .num 1)])
  getById := fun _ => .ok (.obj [("schema", .str "S")])

/-- A two-version clipboard entry with ascending version numbers. -/
def twoVersionClip : Clipboard :=
  ⟨"s", [⟨1, .obj [("schema", .str "A")]⟩, ⟨2, .obj [("schema", .str "B")]⟩]⟩

/-! ### Verification: `verifySubjectRegistered`
(src/unnamed/part_007 lines 415-452) -/

/-- Registry behavior visible to the verification loop, indexed by the
attempt number (0-based): the response of `getVersions subject` and of
`listSubjects` at each attempt. -/
structure VerifyClient where
  getVersionsAt : Nat → Except String (List Int)
  listSubjectsAt : Nat → Except String (List String)

/-- The returned object plus the loop's observable effects:
`attemptsMade` counts loop iterations actually run, `sleeps` the
`setTimeout` delays in order.  `method` carries the source's literal
tag: `'getVersions'` for the versions signal (the spec's "versions"
method) and `'listSubjects'` for the subject-list signal (the spec's
"subjectList" method). -/
structure VerifyResult where
  ok : Bool
  method : Option String
  attemptsMade : Nat
  sleeps : List Nat
  deriving DecidableEq, Repr

/-- Lines 422-428: an attempt's first signal —
`Array.isArray(versions) && versions.length >= expectedMinVersions`,
with a thrown `getVersions` caught and treated as a failed signal. -/
def verifyVersionsSignal (cl : VerifyClient) (i : Nat) (minV : Nat) : Bool :=
  match cl.getVersionsAt i with
  | .ok vs => minV ≤ vs.length
  | .error _ => false

/-- Lines 434-443: the fallback signal —
`Array.isArray(subjects) && subjects.includes(subject)`, with a thrown
`listSubjects` caught and treated as a failed signal. -/
def verifySubjectListSignal (cl : VerifyClient) (subject : String) (i : Nat) : Bool :=
  match cl.listSubjectsAt i with
  | .ok subjects => subject ∈ subjects
  | .error _ => false

/-- Lines 420-448: `for (let i = 0; i < attempts; i++) { … }` with
`await new Promise(r => setTimeout(r, delay)); delay = Math.min(2000,
delay * 2)` after each failed attempt (the last attempt included). -/
def verifyLoop (cl : VerifyClient) (subject : String) (minV : Nat) :
    Nat → Nat → Nat → List Nat → VerifyResult
  | 0, _, i, sleeps => ⟨false, none, i, sleeps.reverse⟩
  | fuel + 1, delay, i, sleeps =>
    if verifyVersionsSignal cl i minV then
      ⟨true, some "getVersions", i + 1, sleeps.reverse⟩
    else if verifySubjectListSignal cl subject i then
      ⟨true, some "listSubjects", i + 1, sleeps.reverse⟩
    else
      verifyLoop cl subject minV fuel (min 2000 (delay * 2)) (i + 1) (delay :: sleeps)

/-- `verifySubjectRegistered(client, subject, expectedMinVersions = 1,
attempts = 6, initialDelayMs = 200)` (line 415). -/
def verifySubjectRegistered (cl : VerifyClient) (subject : String)
    (expectedMinVersions : Nat := 1) (attempts : Nat := 6)
    (initialDelayMs : Nat := 200) : VerifyResult :=
  verifyLoop cl subject expectedMinVersions attempts initialDelayMs 0 []

/-- A registry that never becomes consistent for the pasted subject:
every version listing is empty and every subject listing omits it. -/
def neverConsistentClient : VerifyClient where
  getVersionsAt := fun _ => .ok []
  listSubjectsAt := fun _ => .ok []

/-! ### Copy: the `connectAdmin.copySchema` handler
(src/extension.ts lines 105-141; same guard in src/unnamed/part_007
lines 123-151) -/

/-- Source-registry behavior visible to the copy handler. -/
structure CopyClient where
  getVersions : Except String (List Int)
  getSchema : Int → Except String Payload

/-- The user-visible outcome of the copy command: an error message
(`showErrorMessage`) or the success toast. -/
inductive CopyOutcome where
  | errorMsg (msg : String)
  | copied
  deriving DecidableEq, Repr

/-- Whether a registry call succeeded (did not throw). -/
def exceptOk {α : Type} : Except String α → Bool
  | .ok _ => true
  | .error _ => false

/-- Lines 127-134: fetch each listed version sequentially into `all`;
a per-version fetch failure is logged and that version skipped. -/
def fetchAllVersions (cl : CopyClient) : List Int → List VersionEntry
  | [] => []
  | v :: rest =>
    match cl.getSchema v with
    | .ok schema => ⟨v, schema⟩ :: fetchAllVersions cl rest
    | .error _ => fetchAllVersions cl rest

/-- The `connectAdmin.copySchema` handler (lines 105-141), with the
process-wide clipboard global passed as explicit state (`clip₀` in,
possibly-updated clipboard out).  `nodeVersion` is `node.version`: a
single explicit version, or `none` for "copy all versions".  The
clipboard is assigned only after the `all.length === 0` guard
(line 136-137). -/
def copySchema (cl : CopyClient) (subject : String) (nodeVersion : Option Int)
    (clip₀ : Option Clipboard) : Option Clipboard × CopyOutcome :=
  match nodeVersion with
  | some v =>
    match cl.getSchema v with
    | .ok schema => (some ⟨subject, [⟨v, schema⟩]⟩, .copied)
    | .error _ => (clip₀, .errorMsg "Failed to fetch any versions for subject")
  | none =>
    match cl.getVersions with
    | .error e => (clip₀, .errorMsg ("Failed to copy schema: " ++ e))
    | .ok versions =>
      if versions.isEmpty then (clip₀, .errorMsg "No versions found")
      else
        let all := fetchAllVersions cl versions
        if all.isEmpty then (clip₀, .errorMsg "Failed to fetch any versions for subject")
        else (some ⟨subject, all⟩, .copied)

/-- A source registry with three versions whose middle version is
unreadable. -/
def partialFailureSource : CopyClient where
  getVersions := .ok [1, 2, 3]
  getSchema := fun v =>
    if v = 2 then .error "Failed to get schema (500)"
    else .ok (.obj [("schema", .str "S")])

/-- A source registry whose version listing itself throws. -/
def listFailureSource : CopyClient where
  getVersions := .error "Failed to get versions (503)"
  getSchema := fun _ => .ok (.obj [("schema", .str "S")])

/-! ### Diagnostic search: `findSubjectBySchema`
(src/extension.ts lines 553-585) -/

/-- `JSON.stringify` escaping for quote and backslash (the escapes the
engine's schema strings exercise; the full control-character table is
not needed by any value built here). -/
def jsonEscape (s : String) : String :=
  String.join (s.toList.map (fun ch =>
    if ch = '"' ∨ ch = '\\' then "\\" ++ ch.toString else ch.toString))

mutual

/-- `JSON.stringify` of a payload value (the fallback serialization at
line 566); property order is preserved. -/
def jsonStringify : Payload → String
  | .nul => "null"
  | .bool b => if b then "true" else "false"
  | .num n => toString n
  | .str s => "\"" ++ jsonEscape s ++ "\""
  | .arr elems => "[" ++ jsonStringifyElems elems ++ "]"
  | .obj fields => "\x7b" ++ jsonStringifyFields fields ++ "\x7d"

/-- Comma-joined serialization of array elements. -/
def jsonStringifyElems : List Payload → String
  | [] => ""
  | [x] => jsonStringify x
  | x :: y :: rest => jsonStringify x ++ "," ++ jsonStringifyElems (y :: rest)

/-- Comma-joined serialization of object properties. -/
def jsonStringifyFields : List (String × Payload) → String
  | [] => ""
  | [(k, v)] => "\"" ++ jsonEscape k ++ "\":" ++ jsonStringify v
  | (k, v) :: kv :: rest =>
    "\"" ++ jsonEscape k ++ "\":" ++ jsonStringify v ++ "," ++ jsonStringifyFields (kv :: rest)

end

/-- Line 566: `typeof sch === 'string' ? sch :
extractSchemaString(sch) || JSON.stringify(sch)` — an extracted empty
string is falsy, so it also falls back to the serialization. -/
def normalizeForScan : Payload → String
  | .str s => s
  | sch =>
    match extractSchemaString sch with
    | some s => if s = "" then jsonStringify sch else s
    | none => jsonStringify sch

/-- Registry behavior visible to the diagnostic scan. -/
structure ScanClient where
  listSubjects : Except String (List String)
  getVersions : String → Except String (List Int)
  getSchema : String → Int → Except String Payload

/-- Lines 563-574: the inner `for (const v of versions)` loop; a
per-version fetch error is swallowed (`catch … ignore`). -/
def scanVersionsFor (cl : ScanClient) (schemaStr : String) (s : String) :
    List Int → Option Int
  | [] => none
  | v :: vs =>
    match cl.getSchema s v with
    | .error _ => scanVersionsFor cl schemaStr s vs
    | .ok sch =>
      if normalizeForScan sch = schemaStr then some v
      else scanVersionsFor cl schemaStr s vs

/-- Lines 558-578: the outer subject loop with the
`if (checked++ >= maxSubjects) break` cap; a per-subject version-listing
error is swallowed. -/
def scanSubjects (cl : ScanClient) (schemaStr : String) (maxSubjects : Nat) :
    List String → Nat → Option (String × Int)
  | [], _ => none
  | s :: rest, checked =>
    if maxSubjects ≤ checked then none
    else
      match cl.getVersions s with
      | .error _ => scanSubjects cl schemaStr maxSubjects rest (checked + 1)
      | .ok vs =>
        match scanVersionsFor cl schemaStr s vs with
        | some v => some (s, v)
        | none => scanSubjects cl schemaStr maxSubjects rest (checked + 1)

/-- `findSubjectBySchema(client, schemaStr, maxSubjects = 100)`
(lines 553-585): `null` (`none`) when the subject listing throws or
when nothing matches. -/
def findSubjectBySchema (cl : ScanClient) (schemaStr : String)
    (maxSubjects : Nat := 100) : Option (String × Int) :=
  match cl.listSubjects with
  | .error _ => none
  | .ok subjects => scanSubjects cl schemaStr maxSubjects subjects 0

/-- Modelled from the spec: the scan candidates in scan order — the
first `maxSubjects` listed subjects, each paired with its listed
versions in order; a subject whose version listing fails contributes no
candidates. -/
def scanCandidates (cl : ScanClient) (maxSubjects : Nat)
    (subjects : List String) : List (String × Int) :=
  (subjects.take maxSubjects).flatMap (fun s =>
    match cl.getVersions s with
    | .ok vs => vs.map (fun v => (s, v))
    | .error _ => [])

/-- Modelled from the spec: a candidate matches when its document can
be fetched and normalizes to exactly the queried canonical string; a
failed fetch is treated as no-match. -/
def candidateMatches (cl : ScanClient) (schemaStr : String)
    (c : String × Int) : Bool :=
  match cl.getSchema c.1 c.2 with
  | .ok sch => normalizeForScan sch = schemaStr
  | .error _ => false

/-- Modelled from the spec: the first match over the capped scan
sequence, NotFound otherwise. -/
def findSubjectBySchemaSpec (cl : ScanClient) (schemaStr : String)
    (maxSubjects : Nat := 100) : Option (String × Int) :=
  match cl.listSubjects with
  | .error _ => none
  | .ok subjects =>
    (scanCandidates cl maxSubjects subjects).find? (candidateMatches cl schemaStr)

/-! ### Connector checkpoint mutation: `ConnectClient.setOffsets`
(src/unnamed/part_009 lines 60-141) -/

/-- An HTTP response as the client observes it: `status`, the parsed
JSON body when the body parses (`none` models a `res.json()` throw),
and the raw text body.  Bodies are modelled as re-readable values; the
one-shot stream semantics of `fetch` bodies is memory behavior outside
this embedding. -/
structure HResp where
  status : Nat
  jsonBody : Option Payload
  textBody : String

/-- `res.ok`: status in the 200-299 range. -/
def HResp.isOk (r : HResp) : Bool :=
  decide (200 ≤ r.status) && decide (r.status < 300)

/-- The Connect server as the offsets routine sees it: the initial
logging-only status fetch, the job-level offsets endpoint per HTTP
method, the second status fetch that drives the per-task fallback
(`.error` models a network throw, which the code catches), and the
per-task offsets PUT keyed by the task id value interpolated into the
URL. -/
structure OffsetsServer where
  statusFirst : Except String HResp
  jobOffsets : String → HResp
  statusSecond : Except String HResp
  taskPut : Payload → HResp

/-- A request the routine issued, in order, for the diagnostic trace. -/
inductive OffsetsRequest where
  | statusFetch
  | jobVerb (method : String)
  | taskVerb (taskId : Payload)

/-- A successful outcome: which job-level verb succeeded (its response
body is logged, not returned to the claims here), or the aggregated
per-task results. -/
inductive SetOffsetsResult where
  | jobSuccess (method : String)
  | taskSuccess (results : List Payload)

/-- Line 119, third `||` operand: `t.taskId || t`. -/
def taskIdAlt (t : Payload) : Payload :=
  match t.field "taskId" with
  | some v => if v.truthy then v else t
  | none => t

/-- Line 119, second `||` operand: `(t.task && t.task.id)`, falling
through when falsy. -/
def taskIdFromTask (t : Payload) : Payload :=
  match t.field "task" with
  | some tk =>
    if tk.truthy then
      match tk.field "id" with
      | some v => if v.truthy then v else taskIdAlt t
      | none => taskIdAlt t
    else taskIdAlt t
  | none => taskIdAlt t

/-- Line 119: `const taskId = t.id || (t.task && t.task.id) || t.taskId
|| t`.  The `taskId === undefined` skip (line 120) would need a sparse
array element — an undefined `t` — which has no counterpart among
payload values, so every task yields an id here. -/
def taskIdOf (t : Payload) : Payload :=
  match t.field "id" with
  | some v => if v.truthy then v else taskIdFromTask t
  | none => taskIdFromTask t

/-- Lines 118-128: the per-task PUT loop, pushing the parsed body (or
`{status}` when the body does not parse) on success and
`{status, error}` on failure. -/
def taskResultsLoop (srv : OffsetsServer) : List Payload → List Payload
  | [] => []
  | t :: rest =>
    (if (srv.taskPut (taskIdOf t)).isOk then
      match (srv.taskPut (taskIdOf t)).jsonBody with
      | some j => j
      | none => Payload.obj [("status", .num ((srv.taskPut (taskIdOf t)).status : Int))]
     else
      Payload.obj [("status", .num ((srv.taskPut (taskIdOf t)).status : Int)),
        ("error", .str (srv.taskPut (taskIdOf t)).textBody)])
      :: taskResultsLoop srv rest

/-- Line 130's per-entry failure test, `r && r.status && r.status >=
400`: the entry is truthy and carries a truthy `status` of at least
400.  Statuses are numeric for every entry the loop itself builds;
JavaScript's coercing `>=` on non-numeric statuses is not modelled. -/
def entryFails (r : Payload) : Bool :=
  r.truthy &&
    (match r.field "status" with
     | some (.num n) => decide (n ≠ 0) && decide (400 ≤ n)
     | _ => false)

/-- Lines 137-140: the final generic error, carrying the last job-level
response's status and text. -/
def setOffsetsFailMsg (lastRes : HResp) : String :=
  "Set offsets failed: " ++ toString lastRes.status ++ " " ++ lastRes.textBody

/-- Lines 109-135: the per-task fallback — fetch the connector status
(a throw is caught and ignored), and when it is ok, parses, and lists a
non-empty `tasks` array, PUT offsets for every task and return the
aggregated results if any entry is non-failing; in every other case
fall through to the final generic error. -/
def taskFallback (srv : OffsetsServer) (lastRes : HResp)
    (trace : List OffsetsRequest) :
    Except String SetOffsetsResult × List OffsetsRequest :=
  let trace2 := trace ++ [OffsetsRequest.statusFetch]
  match srv.statusSecond with
  | .error _ => (.error (setOffsetsFailMsg lastRes), trace2)
  | .ok statusRes =>
    if statusRes.isOk then
      match statusRes.jsonBody with
      | none => (.error (setOffsetsFailMsg lastRes), trace2)
      | some body =>
        match body.field "tasks" with
        | some (.arr (t :: ts)) =>
          let results := taskResultsLoop srv (t :: ts)
          let trace3 :=
            trace2 ++ (t :: ts).map (fun tk => OffsetsRequest.taskVerb (taskIdOf tk))
          if results.any (fun r => !(entryFails r)) then
            (.ok (.taskSuccess results), trace3)
          else (.error (setOffsetsFailMsg lastRes), trace3)
        | _ => (.error (setOffsetsFailMsg lastRes), trace2)
    else (.error (setOffsetsFailMsg lastRes), trace2)

/-- `setOffsets` (lines 60-141): PATCH, then PUT on any PATCH failure,
then POST only when PUT answered 405, then the per-task fallback, then
the generic error carrying the last job-level response. -/
def setOffsets (srv : OffsetsServer) :
    Except String SetOffsetsResult × List OffsetsRequest :=
  let trace1 := [OffsetsRequest.statusFetch, OffsetsRequest.jobVerb "PATCH"]
  if (srv.jobOffsets "PATCH").isOk then (.ok (.jobSuccess "PATCH"), trace1)
  else
    let trace2 := trace1 ++ [OffsetsRequest.jobVerb "PUT"]
    if (srv.jobOffsets "PUT").isOk then (.ok (.jobSuccess "PUT"), trace2)
    else
      if (srv.jobOffsets "PUT").status = 405 then
        let trace3 := trace2 ++ [OffsetsRequest.jobVerb "POST"]
        if (srv.jobOffsets "POST").isOk then (.ok (.jobSuccess "POST"), trace3)
        else taskFallback srv (srv.jobOffsets "POST") trace3
      else taskFallback srv (srv.jobOffsets "PUT") trace2

/-- The job-level verbs attempted, in order. -/
def jobVerbOf : OffsetsRequest → Option String
  | .jobVerb m => some m
  | _ => none

/-- The sequence of job-level offset verbs a run attempted. -/
def jobCalls (srv : OffsetsServer) : List String :=
  (setOffsets srv).2.filterMap jobVerbOf

/-- A Connect server whose job is not in a stoppable state: PATCH is
rejected with the precondition error message, while plain PUT is
accepted. -/
def notStoppedServer : OffsetsServer where
  statusFirst := .ok ⟨200, some (.obj [("connector", .obj [("state", .str "RUNNING")])]), ""⟩
  jobOffsets := fun m =>
    if m = "PUT" then ⟨200, some (.obj []), "\x7b\x7d"⟩
    else ⟨400, none, "Connector must be in STOPPED state to modify offsets"⟩
  statusSecond := .ok ⟨200, some (.obj [("tasks", .arr [])]), ""⟩
  taskPut := fun _ => ⟨405, none, ""⟩

/-! ### C6: the normalizer tries the known shapes in the spec's fixed
priority order and returns the first match (NotFound otherwise) -/

theorem firstSomeAux_single (o : Option String) : firstSomeAux [o] = o := by
  cases o <;> rfl

theorem extractAltKeys_eq (fields : List (String × Payload)) :
    extractAltKeys fields =
      firstSomeAux [shapeDefinition (.obj fields), shapeValue (.obj fields),
        shapeRecursiveSearch (.obj fields)] := by
  rw [extractAltKeys]
  rcases h1 : fields.find? (fun kv => kv.1 = "definition") with _ | ⟨k1, v1⟩ <;>
    (try cases v1) <;>
    rcases h2 : fields.find? (fun kv => kv.1 = "value") with _ | ⟨k2, v2⟩ <;>
    (try cases v2) <;>
    simp [shapeDefinition, shapeValue, shapeRecursiveSearch, Payload.field,
      firstSomeAux, firstSomeAux_single, h1, h2]

theorem nested_branch (inner : List (String × Payload)) (rest : List (Option String)) :
    (match inner.find? (fun kv => kv.1 = "schema") with
     | some (_, Payload.str s) => some s
     | _ => firstSomeAux rest) =
    firstSomeAux
      ((match Option.map (fun x => x.2) (inner.find? (fun kv => kv.1 = "schema")) with
        | some (Payload.str s) => some s
        | _ => none) :: rest) := by
  rcases h : inner.find? (fun kv => kv.1 = "schema") with _ | ⟨k, v⟩ <;>
    (try cases v) <;> simp [firstSomeAux, h]

/-- C6: for every payload, `extractSchemaString` tries the known shapes
in the fixed priority order -- direct string, then the `schema` string
field, then `schemaString`, then the nested `schema.schema` string, then
`definition`, then `value`, then the recursive search through the
object-valued properties -- and returns the first match; when no shape
matches it returns `none` (NotFound) rather than throwing (the function
is total by construction). -/
theorem extractSchemaString_priority_order (p : Payload) :
    extractSchemaString p = extractSchemaStringSpec p := by
  cases p with
  | nul =>
    simp [extractSchemaString, extractSchemaStringSpec, shapeDirect, shapeSchemaField,
      shapeSchemaStringField, shapeNestedSchema, shapeDefinition, shapeValue,
      shapeRecursiveSearch, Payload.field, firstSomeAux]
  | bool b =>
    simp [extractSchemaString, extractSchemaStringSpec, shapeDirect, shapeSchemaField,
      shapeSchemaStringField, shapeNestedSchema, shapeDefinition, shapeValue,
      shapeRecursiveSearch, Payload.field, firstSomeAux]
  | num n =>
    simp [extractSchemaString, extractSchemaStringSpec, shapeDirect, shapeSchemaField,
      shapeSchemaStringField, shapeNestedSchema, shapeDefinition, shapeValue,
      shapeRecursiveSearch, Payload.field, firstSomeAux]
  | str s =>
    by_cases h : s = "" <;>
      simp [extractSchemaString, extractSchemaStringSpec, shapeDirect, shapeSchemaField,
        shapeSchemaStringField, shapeNestedSchema, shapeDefinition, shapeValue,
        shapeRecursiveSearch, Payload.field, firstSomeAux, h]
  | arr elems =>
    simp only [extractSchemaString, extractSchemaStringSpec, shapeDirect, shapeSchemaField,
      shapeSchemaStringField, shapeNestedSchema, shapeDefinition, shapeValue,
      shapeRecursiveSearch, Payload.field, firstSomeAux]
    rw [firstSomeAux_single]
  | obj fields =>
    rw [extractSchemaString, extractSchemaStringSpec]
    rcases h1 : fields.find? (fun kv => kv.1 = "schema") with _ | ⟨k1, v1⟩ <;>
      (try cases v1) <;>
      rcases h2 : fields.find? (fun kv => kv.1 = "schemaString") with _ | ⟨k2, v2⟩ <;>
      (try cases v2) <;>
      simp [shapeDirect, shapeSchemaField, shapeSchemaStringField, shapeNestedSchema,
        Payload.field, Payload.isObjLike, firstSomeAux, h1, h2, extractAltKeys_eq] <;>
      exact nested_branch _ _


/-! ### C3: depth of the normalizer's recursive search -/

/-- C3: the claim says `extractSchemaString`'s recursive search descends
at most one level deep.  It does not: on
`{a: {b: {schema: "S"}}}` the source function descends two levels of
object nesting and finds `"S"`, while the one-level-capped normalizer
that the spec (and the source's own comment) describe returns NotFound.
The recursion in the source is unbounded, so on a cyclic object graph —
not representable here — it would not terminate at all. -/
theorem extractSchemaString_depth_not_capped :
    extractSchemaString (.obj [("a", .obj [("b", .obj [("schema", .str "S")])])]) = some "S" ∧
    extractSchemaStringCapped 1 (.obj [("a", .obj [("b", .obj [("schema", .str "S")])])]) = none := by
  constructor <;>
    simp [extractSchemaString, extractAltKeys, searchFields, searchElems,
      extractSchemaStringCapped, extractAltKeysCapped, searchFieldsCapped, searchElemsCapped,
      Payload.isObjLike, List.find?]

/-! ### C1: registered must not coexist with a failed id read-back -/

/-- C1: the claim says a per-version result never reports
`registered = true` together with a failed read-back of the
registry-assigned id.  The code violates this: `registered = true` is
assigned *before* the `getSchemaById` read-back (line 300 / line 294 ff.
of the handler), so when the read-back fails the thrown error is caught
with the flag already set and the retry loop exits.  Against a target
that accepts the write (returning id 1) but fails the id read-back, the
single version's outcome has `registered = true` and
`readBackFailed = true`. -/
theorem pasteSchema_registered_despite_failed_readback :
    (pasteMultiVersion readBackFailTarget
        ⟨"subj", [⟨1, .obj [("schema", .str "S")]⟩]⟩).1 =
      [⟨1, true, true, true, none⟩] := by
  simp [pasteMultiVersion, pasteVersionsLoop, registrationAttempts, normalizeVersion,
    extractSchemaString, schemaTypeOf, typeFallback, Payload.field, Payload.truthy,
    getIdField, readBackFailTarget, List.find?]

/-! ### C4: one outcome per clipboard version, skips recorded -/

theorem pasteLoop_outcomes (tgt : PasteTarget) (entries : List VersionEntry) (c : Nat) :
    ((pasteVersionsLoop tgt entries c).1).length = entries.length ∧
    List.Forall₂ OutcomeMatches entries (pasteVersionsLoop tgt entries c).1 := by
  induction entries generalizing c with
  | nil => simp [pasteVersionsLoop]
  | cons e rest ih =>
    rcases h : normalizeVersion e.schema with _ | req
    · have h2 := ih c
      refine ⟨?_, ?_⟩
      · simp [pasteVersionsLoop, h, h2.1]
      · simp only [pasteVersionsLoop, h]
        exact List.Forall₂.cons ⟨rfl, fun _ => ⟨rfl, rfl⟩⟩ h2.2
    · have h2 := ih (registrationAttempts tgt req 3 c).2
      refine ⟨?_, ?_⟩
      · simp [pasteVersionsLoop, h, h2.1]
      · simp only [pasteVersionsLoop, h]
        exact List.Forall₂.cons ⟨rfl, fun hc => by rw [h] at hc; cases hc⟩ h2.2

/-- C4: for every Paste of a multi-version clipboard, the number of
per-version outcomes equals the number of clipboard versions, however
many versions fail; each outcome belongs (in order) to its clipboard
version, and a version whose payload cannot be normalized is recorded
with `attempted = false` and an error record (the skip log line), never
silently omitted. -/
theorem pasteSchema_outcomes_complete (tgt : PasteTarget) (clip : Clipboard) :
    ((pasteMultiVersion tgt clip).1).length = clip.versions.length ∧
    List.Forall₂ OutcomeMatches clip.versions (pasteMultiVersion tgt clip).1 :=
  pasteLoop_outcomes tgt clip.versions 0

/-- Witness for C4 at a concrete target and a clipboard whose second
version is not normalizable: both conjuncts instantiated, and the
evaluated outcomes show version 2 recorded with `attempted = false`. -/
theorem pasteSchema_outcomes_complete_witness :
    (((pasteMultiVersion okTarget ⟨"s", [⟨1, .obj [("schema", .str "A")]⟩, ⟨2, .num 5⟩]⟩).1).length =
        (Clipboard.mk "s" [⟨1, .obj [("schema", .str "A")]⟩, ⟨2, .num 5⟩]).versions.length ∧
      List.Forall₂ OutcomeMatches
        (Clipboard.mk "s" [⟨1, .obj [("schema", .str "A")]⟩, ⟨2, .num 5⟩]).versions
        (pasteMultiVersion okTarget ⟨"s", [⟨1, .obj [("schema", .str "A")]⟩, ⟨2, .num 5⟩]⟩).1) ∧
    ((pasteMultiVersion okTarget ⟨"s", [⟨1, .obj [("schema", .str "A")]⟩, ⟨2, .num 5⟩]⟩).1).map
        (fun o => (o.versionNumber, o.attempted)) = [(1, true), (2, false)] := by
  refine ⟨pasteSchema_outcomes_complete okTarget _, ?_⟩
  simp [pasteMultiVersion, pasteVersionsLoop, registrationAttempts, normalizeVersion,
    extractSchemaString, schemaTypeOf, typeFallback, Payload.field, Payload.truthy,
    getIdField, okTarget, List.find?]

/-! ### C2: registration calls are issued in ascending version order -/

theorem mem_pasteLoop_trace (tgt : PasteTarget) (entries : List VersionEntry) (c : Nat)
    (x : Int × String) (hx : x ∈ (pasteVersionsLoop tgt entries c).2) :
    x.1 ∈ entries.map (fun e => e.version) := by
  induction entries generalizing c with
  | nil => simp [pasteVersionsLoop] at hx
  | cons e rest ih =>
    rcases h : normalizeVersion e.schema with _ | req
    · simp only [pasteVersionsLoop, h] at hx
      simpa using Or.inr (ih _ hx)
    · simp only [pasteVersionsLoop, h, List.mem_append] at hx
      rcases hx with hrep | htr
      · have := List.eq_of_mem_replicate hrep
        simp [this]
      · simpa using Or.inr (ih _ htr)

theorem registrationAttempts_calls_one (tgt : PasteTarget) (req : RegisterRequest)
    (fuel c : Nat) (h : AlwaysAccepts tgt) :
    (registrationAttempts tgt req (fuel + 1) c).1.regCalls = 1 := by
  obtain ⟨body, hb, hid⟩ := h c req
  rcases hi : getIdField body with _ | id
  · simp [registrationAttempts, hb, hi]
  · obtain ⟨p, hp⟩ := hid id hi
    simp [registrationAttempts, hb, hi, hp]

theorem pairwise_le_replicate (n : Nat) (a : Int) :
    (List.replicate n a).Pairwise (· ≤ ·) := by
  induction n with
  | zero => simp
  | succ n ih =>
    rw [List.replicate_succ]
    exact List.Pairwise.cons (fun b hb => (List.eq_of_mem_replicate hb) ▸ le_refl a) ih

theorem pasteLoop_trace_mono (tgt : PasteTarget) (entries : List VersionEntry) (c : Nat)
    (h : (entries.map (fun e => e.version)).Pairwise (· < ·)) :
    (((pasteVersionsLoop tgt entries c).2).map (fun x => x.1)).Pairwise (· ≤ ·) := by
  induction entries generalizing c with
  | nil => simp [pasteVersionsLoop]
  | cons e rest ih =>
    have hrel : ∀ y ∈ rest.map (fun e => e.version), e.version < y :=
      fun y hy => List.rel_of_pairwise_cons h hy
    have htail := (List.pairwise_cons.mp h).2
    rcases hn : normalizeVersion e.schema with _ | req
    · simp only [pasteVersionsLoop, hn]
      exact ih _ htail
    · simp only [pasteVersionsLoop, hn, List.map_append, List.map_replicate]
      rw [List.pairwise_append]
      refine ⟨pairwise_le_replicate _ _, ih _ htail, ?_⟩
      intro a ha b hb
      have ha' := List.eq_of_mem_replicate ha
      have hb' : b ∈ rest.map (fun e => e.version) := by
        rcases List.mem_map.mp hb with ⟨x, hx, rfl⟩
        exact mem_pasteLoop_trace tgt rest _ x hx
      exact le_of_lt (ha' ▸ hrel b hb')

theorem pasteLoop_trace_strict (tgt : PasteTarget) (entries : List VersionEntry) (c : Nat)
    (h : (entries.map (fun e => e.version)).Pairwise (· < ·)) (ha : AlwaysAccepts tgt) :
    (((pasteVersionsLoop tgt entries c).2).map (fun x => x.1)).Pairwise (· < ·) := by
  induction entries generalizing c with
  | nil => simp [pasteVersionsLoop]
  | cons e rest ih =>
    have hrel : ∀ y ∈ rest.map (fun e => e.version), e.version < y :=
      fun y hy => List.rel_of_pairwise_cons h hy
    have htail := (List.pairwise_cons.mp h).2
    rcases hn : normalizeVersion e.schema with _ | req
    · simp only [pasteVersionsLoop, hn]
      exact ih _ htail
    · have h1 : (registrationAttempts tgt req 3 c).1.regCalls = 1 :=
        registrationAttempts_calls_one tgt req 2 c ha
      simp only [pasteVersionsLoop, hn, List.map_append, List.map_replicate, h1,
        List.replicate_one, List.singleton_append]
      refine List.Pairwise.cons ?_ (ih _ htail)
      intro b hb
      rcases List.mem_map.mp hb with ⟨x, hx, rfl⟩
      exact hrel _ (mem_pasteLoop_trace tgt rest _ x hx)

/-- C2: for every clipboard whose versions carry strictly ascending
version numbers (the clipboard invariant, §3), the paste replay issues
its registration calls in version order: the trace of `registerSchema`
calls is monotone in the replayed version number (versions are never
reordered), and against a mock target that accepts every registration
the call sequence is strictly ascending. -/
theorem pasteSchema_ascending_register_order (tgt : PasteTarget) (clip : Clipboard)
    (h : (clip.versions.map (fun e => e.version)).Pairwise (· < ·)) :
    (((pasteMultiVersion tgt clip).2).map (fun x => x.1)).Pairwise (· ≤ ·) ∧
    (AlwaysAccepts tgt →
      (((pasteMultiVersion tgt clip).2).map (fun x => x.1)).Pairwise (· < ·)) :=
  ⟨pasteLoop_trace_mono tgt clip.versions 0 h,
   fun ha => pasteLoop_trace_strict tgt clip.versions 0 h ha⟩

theorem okTarget_alwaysAccepts : AlwaysAccepts okTarget :=
  fun _ _ => ⟨Payload.obj [("id", .num 1)], rfl,
    fun _ _ => ⟨Payload.obj [("schema", .str "S")], rfl⟩⟩

/-- Witness for C2: on a two-version clipboard against the concrete
always-accepting mock target, the recorded call order is `[1, 2]` and
strictly ascending. -/
theorem pasteSchema_ascending_register_order_witness :
    (((pasteMultiVersion okTarget twoVersionClip).2).map (fun x => x.1)).Pairwise (· < ·) ∧
    ((pasteMultiVersion okTarget twoVersionClip).2).map (fun x => x.1) = [1, 2] := by
  constructor
  · exact (pasteSchema_ascending_register_order okTarget twoVersionClip
      (by simp [twoVersionClip])).2 okTarget_alwaysAccepts
  · simp [pasteMultiVersion, pasteVersionsLoop, registrationAttempts, normalizeVersion,
      extractSchemaString, schemaTypeOf, typeFallback, Payload.field, Payload.truthy,
      getIdField, okTarget, twoVersionClip, List.find?]


/-! ### C5: verification retry/backoff policy -/

theorem verifyLoop_attempts_le (cl : VerifyClient) (subject : String) (minV : Nat) :
    ∀ fuel delay i sleeps,
      (verifyLoop cl subject minV fuel delay i sleeps).attemptsMade ≤ i + fuel := by
  intro fuel
  induction fuel with
  | zero => intro delay i sleeps; simp [verifyLoop]
  | succ n ih =>
    intro delay i sleeps
    by_cases h1 : verifyVersionsSignal cl i minV
    · simp [verifyLoop, h1]
    · by_cases h2 : verifySubjectListSignal cl subject i
      · simp [verifyLoop, h1, h2]
      · simp only [verifyLoop, h1, h2, if_false, Bool.false_eq_true]
        have := ih (min 2000 (delay * 2)) (i + 1) (delay :: sleeps)
        omega

theorem verifyLoop_ok_char (cl : VerifyClient) (subject : String) (minV : Nat) :
    ∀ fuel delay i sleeps,
      (verifyLoop cl subject minV fuel delay i sleeps).ok = true →
      ∃ j, i ≤ j ∧ j < i + fuel ∧
        (verifyLoop cl subject minV fuel delay i sleeps).attemptsMade = j + 1 ∧
        ((verifyVersionsSignal cl j minV = true ∧
            (verifyLoop cl subject minV fuel delay i sleeps).method = some "getVersions") ∨
         (verifyVersionsSignal cl j minV = false ∧
            verifySubjectListSignal cl subject j = true ∧
            (verifyLoop cl subject minV fuel delay i sleeps).method = some "listSubjects")) := by
  intro fuel
  induction fuel with
  | zero => intro delay i sleeps h; simp [verifyLoop] at h
  | succ n ih =>
    intro delay i sleeps h
    by_cases h1 : verifyVersionsSignal cl i minV
    · have hm : (verifyLoop cl subject minV (n + 1) delay i sleeps).attemptsMade = i + 1 := by
        simp [verifyLoop, h1]
      have hmeth : (verifyLoop cl subject minV (n + 1) delay i sleeps).method =
          some "getVersions" := by
        simp [verifyLoop, h1]
      exact ⟨i, le_refl i, by omega, hm, Or.inl ⟨h1, hmeth⟩⟩
    · by_cases h2 : verifySubjectListSignal cl subject i
      · have hm : (verifyLoop cl subject minV (n + 1) delay i sleeps).attemptsMade = i + 1 := by
          simp [verifyLoop, h1, h2]
        have hmeth : (verifyLoop cl subject minV (n + 1) delay i sleeps).method =
            some "listSubjects" := by
          simp [verifyLoop, h1, h2]
        exact ⟨i, le_refl i, by omega, hm, Or.inr ⟨by simpa using h1, h2, hmeth⟩⟩
      · simp only [verifyLoop, h1, h2, if_false, Bool.false_eq_true] at h ⊢
        obtain ⟨j, hij, hlt, hmade, hcase⟩ := ih (min 2000 (delay * 2)) (i + 1) (delay :: sleeps) h
        exact ⟨j, by omega, by omega, hmade, hcase⟩

theorem verifyLoop_never_consistent (cl : VerifyClient) (subject : String)
    (hv : ∀ i, verifyVersionsSignal cl i 1 = false)
    (hs : ∀ i, verifySubjectListSignal cl subject i = false) :
    verifySubjectRegistered cl subject = ⟨false, none, 6, [200, 400, 800, 1600, 2000, 2000]⟩ := by
  simp [verifySubjectRegistered, verifyLoop, hv, hs]

/-- C5: `verifySubjectRegistered` makes at most `maxAttempts = 6`
attempts; a successful run succeeded at some attempt `j < 6`, either
because the version listing returned at least `minExpectedVersions`
entries (the source's `'getVersions'` method — the spec's "versions")
or, that signal failing, because the subject appeared in the
all-subjects list (`'listSubjects'` — the spec's "subjectList"); against
a target that never becomes consistent it returns `ok : false` after
exactly 6 attempts having slept 200, 400, 800, 1600, 2000, 2000 ms (the
delay doubles from 200 ms up to the 2000 ms cap), a total of at least
7000 ms. -/
theorem verifySubjectRegistered_retry_policy (cl : VerifyClient) (subject : String) :
    (verifySubjectRegistered cl subject).attemptsMade ≤ 6 ∧
    ((verifySubjectRegistered cl subject).ok = true →
      ∃ j, j < 6 ∧ (verifySubjectRegistered cl subject).attemptsMade = j + 1 ∧
        ((verifyVersionsSignal cl j 1 = true ∧
            (verifySubjectRegistered cl subject).method = some "getVersions") ∨
         (verifyVersionsSignal cl j 1 = false ∧
            verifySubjectListSignal cl subject j = true ∧
            (verifySubjectRegistered cl subject).method = some "listSubjects"))) ∧
    ((∀ i, verifyVersionsSignal cl i 1 = false) →
      (∀ i, verifySubjectListSignal cl subject i = false) →
      verifySubjectRegistered cl subject = ⟨false, none, 6, [200, 400, 800, 1600, 2000, 2000]⟩ ∧
        200 + 400 + 800 + 1600 + 2000 + 2000 ≤
          ((verifySubjectRegistered cl subject).sleeps).sum) := by
  refine ⟨verifyLoop_attempts_le cl subject 1 6 200 0 [], ?_, ?_⟩
  · intro h
    obtain ⟨j, _, hlt, hmade, hcase⟩ := verifyLoop_ok_char cl subject 1 6 200 0 [] h
    exact ⟨j, by omega, hmade, hcase⟩
  · intro hv hs
    have h := verifyLoop_never_consistent cl subject hv hs
    refine ⟨h, ?_⟩
    rw [h]
    norm_num

/-- Witness for C5: the never-consistent mock registry runs all 6
attempts, fails, and sleeps exactly 200+400+800+1600+2000+2000 ms. -/
theorem verifySubjectRegistered_retry_policy_witness :
    verifySubjectRegistered neverConsistentClient "user-v1-copy" =
      ⟨false, none, 6, [200, 400, 800, 1600, 2000, 2000]⟩ ∧
    200 + 400 + 800 + 1600 + 2000 + 2000 ≤
      ((verifySubjectRegistered neverConsistentClient "user-v1-copy").sleeps).sum :=
  (verifySubjectRegistered_retry_policy neverConsistentClient "user-v1-copy").2.2
    (fun _ => rfl) (fun _ => rfl)


/-! ### C7 and C10: copy failure modes and clipboard preservation -/

theorem fetchAllVersions_map (cl : CopyClient) (vs : List Int) :
    (fetchAllVersions cl vs).map (fun e => e.version) =
      vs.filter (fun v => exceptOk (cl.getSchema v)) := by
  induction vs with
  | nil => simp [fetchAllVersions]
  | cons v rest ih =>
    cases hget : cl.getSchema v <;>
      simp [fetchAllVersions, exceptOk, hget, ih]

theorem fetchAllVersions_empty_iff (cl : CopyClient) (vs : List Int) :
    fetchAllVersions cl vs = [] ↔ ∀ v ∈ vs, exceptOk (cl.getSchema v) = false := by
  induction vs with
  | nil => simp [fetchAllVersions]
  | cons v rest ih =>
    cases hget : cl.getSchema v <;>
      simp [fetchAllVersions, exceptOk, hget, ih]

/-- C7: copy of all versions fails with the empty-subject error
("No versions found") exactly when the source lists zero versions;
given at least one listed version, it fails with the copy-failed error
("Failed to fetch any versions for subject") if and only if every
per-version fetch failed; and whenever some fetch succeeds the copy
succeeds, with exactly the fetch-failed versions excluded from the
resulting clipboard entry (in listing order) — a single per-version
failure never fails the copy by itself. -/
theorem copySchema_failure_modes (cl : CopyClient) (subject : String)
    (clip₀ : Option Clipboard) (vs : List Int) (hv : cl.getVersions = .ok vs) :
    (vs = [] → copySchema cl subject none clip₀ = (clip₀, .errorMsg "No versions found")) ∧
    (vs ≠ [] →
      ((copySchema cl subject none clip₀).2 =
          .errorMsg "Failed to fetch any versions for subject"
        ↔ ∀ v ∈ vs, exceptOk (cl.getSchema v) = false)) ∧
    (vs ≠ [] → (∃ v ∈ vs, exceptOk (cl.getSchema v) = true) →
      copySchema cl subject none clip₀ = (some ⟨subject, fetchAllVersions cl vs⟩, .copied) ∧
      (fetchAllVersions cl vs).map (fun e => e.version) =
        vs.filter (fun v => exceptOk (cl.getSchema v))) := by
  refine ⟨?_, ?_, ?_⟩
  · intro h
    subst h
    simp [copySchema, hv]
  · intro hne
    by_cases hall : fetchAllVersions cl vs = []
    · simp [copySchema, hv, List.isEmpty_iff, hne, hall]
      exact (fetchAllVersions_empty_iff cl vs).mp hall
    · have : ¬ ∀ v ∈ vs, exceptOk (cl.getSchema v) = false :=
        fun hc => hall ((fetchAllVersions_empty_iff cl vs).mpr hc)
      simp [copySchema, hv, List.isEmpty_iff, hne, hall, this]
  · intro hne ⟨v, hvmem, hvok⟩
    have hall : fetchAllVersions cl vs ≠ [] := by
      intro hc
      have := (fetchAllVersions_empty_iff cl vs).mp hc v hvmem
      rw [hvok] at this
      cases this
    refine ⟨?_, fetchAllVersions_map cl vs⟩
    simp [copySchema, hv, List.isEmpty_iff, hne, hall]

/-- Witness for C7: a three-version source whose version 2 is
unreadable still copies, and the clipboard holds versions [1, 3]. -/
theorem copySchema_failure_modes_witness :
    copySchema partialFailureSource "user-v1" none none =
      (some ⟨"user-v1", fetchAllVersions partialFailureSource [1, 2, 3]⟩, .copied) ∧
    (fetchAllVersions partialFailureSource [1, 2, 3]).map (fun e => e.version) = [1, 3] := by
  have h := (copySchema_failure_modes partialFailureSource "user-v1" none [1, 2, 3] rfl).2.2
    (by simp) ⟨1, by simp, rfl⟩
  refine ⟨h.1, ?_⟩
  rw [h.2]
  decide

/-- C10: whenever copy fails (version listing throws, zero versions
listed, or every per-version fetch failed) the process-wide clipboard
is left unchanged, and the clipboard changes only to a freshly copied
entry holding at least one successfully fetched version. -/
theorem copySchema_clipboard_preserved (cl : CopyClient) (subject : String)
    (nodeVersion : Option Int) (clip₀ : Option Clipboard) :
    (∀ msg, (copySchema cl subject nodeVersion clip₀).2 = .errorMsg msg →
      (copySchema cl subject nodeVersion clip₀).1 = clip₀) ∧
    ((copySchema cl subject nodeVersion clip₀).1 ≠ clip₀ →
      ∃ c, (copySchema cl subject nodeVersion clip₀).1 = some c ∧
        (copySchema cl subject nodeVersion clip₀).2 = .copied ∧ c.versions ≠ []) := by
  rcases nodeVersion with _ | v
  · rcases hv : cl.getVersions with e | vs
    · simp [copySchema, hv]
    · by_cases hvs : vs.isEmpty
      · simp [copySchema, hv, hvs]
      · by_cases hall : (fetchAllVersions cl vs).isEmpty
        · simp [copySchema, hv, hvs, hall]
        · refine ⟨?_, ?_⟩
          · intro msg hmsg
            simp [copySchema, hv, hvs, hall] at hmsg
          · intro _
            exact ⟨⟨subject, fetchAllVersions cl vs⟩, by simp [copySchema, hv, hvs, hall],
              by simp [copySchema, hv, hvs, hall],
              by simpa [List.isEmpty_iff] using hall⟩
  · rcases hg : cl.getSchema v with e | schema
    · simp [copySchema, hg]
    · refine ⟨?_, ?_⟩
      · intro msg hmsg
        simp [copySchema, hg] at hmsg
      · intro _
        exact ⟨⟨subject, [⟨v, schema⟩]⟩, by simp [copySchema, hg], by simp [copySchema, hg],
          by simp⟩

/-- Witness for C10: a copy whose version listing throws leaves the
previously copied clipboard entry in place. -/
theorem copySchema_clipboard_preserved_witness :
    (copySchema listFailureSource "user-v1" none (some twoVersionClip)).1 =
      some twoVersionClip ∧
    (copySchema listFailureSource "user-v1" none (some twoVersionClip)).2 =
      .errorMsg "Failed to copy schema: Failed to get versions (503)" :=
  ⟨(copySchema_clipboard_preserved listFailureSource "user-v1" none (some twoVersionClip)).1
      "Failed to copy schema: Failed to get versions (503)" rfl,
   rfl⟩


/-! ### C8: the diagnostic scan is a capped, error-swallowing first
match in scan order -/

theorem scanVersionsFor_find (cl : ScanClient) (q s : String) (vs : List Int) :
    (vs.map (fun v => (s, v))).find? (candidateMatches cl q) =
      (scanVersionsFor cl q s vs).map (fun v => (s, v)) := by
  induction vs with
  | nil => simp [scanVersionsFor]
  | cons v vs ih =>
    cases hg : cl.getSchema s v with
    | error e =>
      have hp : candidateMatches cl q (s, v) = false := by
        simp [candidateMatches, hg]
      simp [scanVersionsFor, List.find?_cons, hp, hg, ih]
    | ok sch =>
      by_cases heq : normalizeForScan sch = q
      · have hp : candidateMatches cl q (s, v) = true := by
          simp [candidateMatches, hg, heq]
        simp [scanVersionsFor, List.find?_cons, hp, hg, heq]
      · have hp : candidateMatches cl q (s, v) = false := by
          simp [candidateMatches, hg, heq]
        simp [scanVersionsFor, List.find?_cons, hp, hg, heq, ih]

theorem scanSubjects_eq_spec (cl : ScanClient) (q : String) (m : Nat) :
    ∀ (subjects : List String) (checked : Nat),
      scanSubjects cl q m subjects checked =
        (scanCandidates cl (m - checked) subjects).find? (candidateMatches cl q) := by
  intro subjects
  induction subjects with
  | nil => intro checked; simp [scanSubjects, scanCandidates]
  | cons s rest ih =>
    intro checked
    by_cases hc : m ≤ checked
    · have h0 : m - checked = 0 := Nat.sub_eq_zero_of_le hc
      simp [scanSubjects, scanCandidates, hc, h0]
    · have h1 : m - checked = (m - (checked + 1)) + 1 := by omega
      rw [h1]
      simp only [scanCandidates, List.take_succ_cons, List.flatMap_cons]
      rw [List.find?_append]
      cases hv : cl.getVersions s with
      | error e =>
        simp only [scanSubjects, hc, if_false, hv]
        rw [ih (checked + 1)]
        simp [scanCandidates]
      | ok vs =>
        rw [scanVersionsFor_find cl q s vs]
        cases hs : scanVersionsFor cl q s vs with
        | some v =>
          simp [scanSubjects, hc, hv, hs]
        | none =>
          simp only [scanSubjects, hc, if_false, hv, hs, Option.map_none, Option.none_or]
          rw [ih (checked + 1)]
          simp [scanCandidates]

/-- C8: `findSubjectBySchema` equals the spec-shaped scan: among the
first `maxSubjects` (100 by default) listed subjects — each contributing
its listed versions in order, a failed version listing contributing
nothing — it returns the first candidate whose fetched document
normalizes to exactly the queried string, per-candidate fetch errors
counting as no-match; it returns NotFound (`none`, never a throw) when
the subject listing fails or no candidate matches. -/
theorem findSubjectBySchema_first_match (cl : ScanClient) (q : String) (m : Nat) :
    findSubjectBySchema cl q m = findSubjectBySchemaSpec cl q m := by
  cases hl : cl.listSubjects with
  | error e => simp [findSubjectBySchema, findSubjectBySchemaSpec, hl]
  | ok subjects =>
    simp only [findSubjectBySchema, findSubjectBySchemaSpec, hl]
    have := scanSubjects_eq_spec cl q m subjects 0
    simpa using this


/-! ### C9: checkpoint-mutation verb fallback -/

/-- Counterexample for C9 as stated: a job that is not in a stoppable
state rejects PATCH with the precondition error message, yet the
routine does not surface a typed precondition failure and does retry —
it falls through to PUT and reports success via PUT. -/
theorem setOffsets_precondition_rejection_retried :
    (setOffsets notStoppedServer).1 = .ok (.jobSuccess "PUT") ∧
    (setOffsets notStoppedServer).2 =
      [.statusFetch, .jobVerb "PATCH", .jobVerb "PUT"] := by
  constructor <;> simp [setOffsets, notStoppedServer, HResp.isOk]

theorem taskFallback_spec (srv : OffsetsServer) (lastRes : HResp)
    (trace : List OffsetsRequest) (sr : HResp) (b t : Payload) (ts : List Payload)
    (hstat : srv.statusSecond = .ok sr) (hsok : sr.isOk = true)
    (hbody : sr.jsonBody = some b)
    (htasks : b.field "tasks" = some (.arr (t :: ts))) :
    (∀ tk ∈ t :: ts,
      OffsetsRequest.taskVerb (taskIdOf tk) ∈ (taskFallback srv lastRes trace).2) ∧
    ((taskFallback srv lastRes trace).1 =
        .ok (.taskSuccess (taskResultsLoop srv (t :: ts))) ↔
      (taskResultsLoop srv (t :: ts)).any (fun r => !(entryFails r)) = true) := by
  have hunfold : taskFallback srv lastRes trace =
      (if (taskResultsLoop srv (t :: ts)).any (fun r => !(entryFails r)) then
        (.ok (.taskSuccess (taskResultsLoop srv (t :: ts))),
          trace ++ [OffsetsRequest.statusFetch] ++
            (t :: ts).map (fun tk => OffsetsRequest.taskVerb (taskIdOf tk)))
      else
        (.error (setOffsetsFailMsg lastRes),
          trace ++ [OffsetsRequest.statusFetch] ++
            (t :: ts).map (fun tk => OffsetsRequest.taskVerb (taskIdOf tk)))) := by
    simp [taskFallback, hstat, hsok, hbody, htasks]
  constructor
  · intro tk htk
    rw [hunfold]
    cases hany : (taskResultsLoop srv (t :: ts)).any (fun r => !(entryFails r)) <;>
      simp only [hany, if_true, if_false, Bool.false_eq_true, List.mem_append,
        List.mem_map] <;>
      exact Or.inr ⟨tk, htk, rfl⟩
  · rw [hunfold]
    cases hany : (taskResultsLoop srv (t :: ts)).any (fun r => !(entryFails r)) <;>
      simp [hany]

theorem taskFallback_ok_inv (srv : OffsetsServer) (lastRes : HResp)
    (trace : List OffsetsRequest) :
    ∀ res, (taskFallback srv lastRes trace).1 = .ok res →
      ∃ results, res = .taskSuccess results ∧
        results.any (fun r => !(entryFails r)) = true := by
  intro res h
  simp only [taskFallback] at h
  rcases hstat : srv.statusSecond with e | sr <;> simp only [hstat] at h
  · simp at h
  · split at h
    · split at h
      · simp at h
      · split at h
        · split at h
          · rename_i hany
            cases h
            exact ⟨_, rfl, hany⟩
          · simp at h
        · simp at h
    · simp at h

theorem taskFallback_trace_jobCalls (srv : OffsetsServer) (lastRes : HResp)
    (trace : List OffsetsRequest) :
    (taskFallback srv lastRes trace).2.filterMap jobVerbOf = trace.filterMap jobVerbOf := by
  simp only [taskFallback]
  split
  · simp [jobVerbOf]
  · split
    · split
      · simp [jobVerbOf]
      · split
        · split <;>
            simp [jobVerbOf, List.filterMap_append, List.filterMap_map, Function.comp]
        · simp [jobVerbOf]
    · simp [jobVerbOf]

/-- C9 (amended): `setOffsets` attempts PATCH first; on *any* PATCH
failure — a not-stoppable precondition rejection included, with no
special typing — it falls back to PUT; POST is attempted exactly when
PUT answers method-not-allowed (405); when no job-level verb succeeded
and the job status lists tasks, it PUTs the checkpoint to every task
and reports overall success if and only if at least one per-task result
is non-failing; otherwise it fails with the generic error carrying the
last job-level response. -/
theorem setOffsets_verb_fallback (srv : OffsetsServer) :
    (jobCalls srv).head? = some "PATCH" ∧
    ((srv.jobOffsets "PATCH").isOk = true →
      (setOffsets srv).1 = .ok (.jobSuccess "PATCH") ∧ jobCalls srv = ["PATCH"]) ∧
    ((srv.jobOffsets "PATCH").isOk = false → "PUT" ∈ jobCalls srv) ∧
    ((srv.jobOffsets "PATCH").isOk = false → (srv.jobOffsets "PUT").isOk = false →
      jobCalls srv =
        if (srv.jobOffsets "PUT").status = 405 then ["PATCH", "PUT", "POST"]
        else ["PATCH", "PUT"]) ∧
    ((srv.jobOffsets "PATCH").isOk = false → (srv.jobOffsets "PUT").isOk = false →
      ((srv.jobOffsets "PUT").status = 405 → (srv.jobOffsets "POST").isOk = false) →
      (∀ res, (setOffsets srv).1 = .ok res →
        ∃ results, res = .taskSuccess results ∧
          results.any (fun r => !(entryFails r)) = true) ∧
      (∀ sr b t ts, srv.statusSecond = .ok sr → sr.isOk = true →
        sr.jsonBody = some b → b.field "tasks" = some (.arr (t :: ts)) →
        (∀ tk ∈ t :: ts, OffsetsRequest.taskVerb (taskIdOf tk) ∈ (setOffsets srv).2) ∧
        ((setOffsets srv).1 = .ok (.taskSuccess (taskResultsLoop srv (t :: ts))) ↔
          (taskResultsLoop srv (t :: ts)).any (fun r => !(entryFails r)) = true))) := by
  cases hp : (srv.jobOffsets "PATCH").isOk with
  | true =>
    refine ⟨?_, fun _ => ⟨?_, ?_⟩, ?_, ?_, ?_⟩
    · simp [jobCalls, setOffsets, hp, jobVerbOf]
    · simp [setOffsets, hp]
    · simp [jobCalls, setOffsets, hp, jobVerbOf]
    · intro hc; exact Bool.noConfusion hc
    · intro hc; exact Bool.noConfusion hc
    · intro hc; exact Bool.noConfusion hc
  | false =>
    cases hput : (srv.jobOffsets "PUT").isOk with
    | true =>
      refine ⟨?_, ?_, fun _ => ?_, ?_, ?_⟩
      · simp [jobCalls, setOffsets, hp, hput, jobVerbOf]
      · intro hc; exact Bool.noConfusion hc
      · simp [jobCalls, setOffsets, hp, hput, jobVerbOf]
      · intro _ hc; exact Bool.noConfusion hc
      · intro _ hc; exact Bool.noConfusion hc
    | false =>
      by_cases h405 : (srv.jobOffsets "PUT").status = 405
      · cases hpost : (srv.jobOffsets "POST").isOk with
        | true =>
          refine ⟨?_, ?_, fun _ => ?_, fun _ _ => ?_, fun _ _ hpostfail => ?_⟩
          · simp [jobCalls, setOffsets, hp, hput, h405, hpost, jobVerbOf]
          · intro hc; exact Bool.noConfusion hc
          · simp [jobCalls, setOffsets, hp, hput, h405, hpost, jobVerbOf]
          · simp [jobCalls, setOffsets, hp, hput, h405, hpost, jobVerbOf]
          · exact Bool.noConfusion (hpostfail h405)
        | false =>
          have hset : setOffsets srv =
              taskFallback srv (srv.jobOffsets "POST")
                [OffsetsRequest.statusFetch, OffsetsRequest.jobVerb "PATCH",
                 OffsetsRequest.jobVerb "PUT", OffsetsRequest.jobVerb "POST"] := by
            simp [setOffsets, hp, hput, h405, hpost]
          refine ⟨?_, ?_, fun _ => ?_, fun _ _ => ?_, fun _ _ _ => ⟨?_, ?_⟩⟩
          · rw [jobCalls, hset, taskFallback_trace_jobCalls]
            simp [jobVerbOf]
          · intro hc; exact Bool.noConfusion hc
          · rw [jobCalls, hset, taskFallback_trace_jobCalls]
            simp [jobVerbOf]
          · rw [jobCalls, hset, taskFallback_trace_jobCalls, if_pos h405]
            simp [jobVerbOf]
          · rw [hset]
            exact taskFallback_ok_inv srv _ _
          · intro sr b t ts hstat hsok hbody htasks
            rw [hset]
            exact taskFallback_spec srv _ _ sr b t ts hstat hsok hbody htasks
      · have hset : setOffsets srv =
            taskFallback srv (srv.jobOffsets "PUT")
              [OffsetsRequest.statusFetch, OffsetsRequest.jobVerb "PATCH",
               OffsetsRequest.jobVerb "PUT"] := by
          simp [setOffsets, hp, hput, h405]
        refine ⟨?_, ?_, fun _ => ?_, fun _ _ => ?_, fun _ _ _ => ⟨?_, ?_⟩⟩
        · rw [jobCalls, hset, taskFallback_trace_jobCalls]
          simp [jobVerbOf]
        · intro hc; exact Bool.noConfusion hc
        · rw [jobCalls, hset, taskFallback_trace_jobCalls]
          simp [jobVerbOf]
        · rw [jobCalls, hset, taskFallback_trace_jobCalls, if_neg h405]
          simp [jobVerbOf]
        · rw [hset]
          exact taskFallback_ok_inv srv _ _
        · intro sr b t ts hstat hsok hbody htasks
          rw [hset]
          exact taskFallback_spec srv _ _ sr b t ts hstat hsok hbody htasks

/-- Witness for the amended C9: against the not-stoppable mock server,
PATCH failed so PUT was attempted, and the attempted job verbs were
exactly PATCH then PUT. -/
theorem setOffsets_verb_fallback_witness :
    "PUT" ∈ jobCalls notStoppedServer ∧ jobCalls notStoppedServer = ["PATCH", "PUT"] := by
  refine ⟨(setOffsets_verb_fallback notStoppedServer).2.2.1
    (by simp [notStoppedServer, HResp.isOk]), ?_⟩
  simp [jobCalls, setOffsets, notStoppedServer, HResp.isOk, jobVerbOf]

end ConnectAdmin
